import Mathlib

/-!
Shallow embedding of `simplenote/simplenote.py` (the `Simplenote` class):
authentication, single-note CRUD, and the paginated index listing.

The HTTP transport (`requests.Session`) is an external collaborator; it is
modelled by explicit response values passed to each operation.  Python
dictionaries holding notes are modelled as association lists over a small
JSON-value type.  All functions run under Python 3 semantics
(`sys.version_info >= (3, 0)`), so `__encode` / `__decode` are identities.
-/

namespace Simplenote

/-- Source line 20: the login endpoint. -/
def AUTH_URL : String := "https://app.simplenote.com/api/login"

/-- Source line 21: the per-note / collection data endpoint. -/
def DATA_URL : String := "https://app.simplenote.com/api2/data"

/-- Source line 22: the index (listing) endpoint. -/
def INDX_URL : String := "https://app.simplenote.com/api2/index?"

/-- Source line 23: page size for listing requests. -/
def NOTE_FETCH_LENGTH : Nat := 100

/-- JSON values that appear in note records for the operations under study:
strings, numbers, and lists of strings (tags). -/
inductive JVal where
  | s : String → JVal
  | num : Int → JVal
  | strs : List String → JVal
deriving DecidableEq

/-- `str(v)` as used by `"{0}/{1}".format(DATA_URL, note["key"])`; note keys
are strings in practice. -/
def JVal.toStr : JVal → String
  | .s str => str
  | .num n => toString n
  | .strs ts => toString ts

/-- A Python dict holding a note: an association list from field names to
values (an open, schema-less record; source §docstrings). -/
abbrev Note := List (String × JVal)

/-- Dict lookup `note[k]` / `note.get(k)`: first binding for `k`, if any. -/
def noteGet (n : Note) (k : String) : Option JVal :=
  match n with
  | [] => none
  | (k', v) :: rest => if k' = k then some v else noteGet rest k

/-- Dict membership test `k in note`. -/
def noteHas (n : Note) (k : String) : Bool :=
  (noteGet n k).isSome

/-- Dict assignment `note[k] = v`: replace the binding for `k` in place,
or append it if absent. -/
def noteSet (n : Note) (k : String) (v : JVal) : Note :=
  match n with
  | [] => [(k, v)]
  | (k', v') :: rest => if k' = k then (k, v) :: rest else (k', v') :: noteSet rest k v

/-- Outcome of one HTTP POST performed by the transport: either a response
(with its HTTP status code and body text) or a connection-level failure,
which `requests` raises as an `IOError` subclass. -/
inductive PostResult where
  | resp (status : Nat) (body : String)
  | connError
deriving DecidableEq

/-- How a call to `authenticate` (source lines 39-66) ends: a returned token
string, a propagated `IOError`, or a raised `SimplenoteLoginFailed`
(source lines 25-26). -/
inductive AuthOutcome where
  | token (t : String)
  | ioError
  | loginFailed
deriving DecidableEq

/-- `Simplenote.authenticate` (source lines 39-66).

The POST (line 57) stands *outside* the `try` block of lines 59-66, so a
connection-level `IOError` raised by the transport propagates to the caller
uncaught.  Inside the `try`, the body only reads `response.text` (line 60),
which does not raise `HTTPError` — no `raise_for_status` is ever called —
so an HTTP error status simply yields the response body as the token and
the `except HTTPError` handler raising `SimplenoteLoginFailed` (line 63)
and the `except IOError` handler returning `None` (lines 64-65) are dead
code.  (The name `HTTPError` is not even imported by the module.) -/
def authenticate (r : PostResult) : AuthOutcome :=
  match r with
  | .connError => .ioError
  | .resp _ body => .token body

/-- Result of one `get_token` call: the token cache afterwards, the outcome
observed by the caller, and whether `authenticate` (hence the login POST)
was invoked during the call. -/
structure TokenStep where
  cache : Option String
  outcome : AuthOutcome
  calledAuth : Bool
deriving DecidableEq

/-- `Simplenote.get_token` (source lines 68-83) acting on the cached
`self.token` (modelled as `Option String`; `None` initially).

Line 78 tests `self.token == None` — not truthiness — so `authenticate` is
invoked only when the cache is `None`.  Under Python 3 the cached value is
a `str`, so `str(self.token, 'utf-8')` raises `TypeError` and line 83
returns the cached string unchanged.  If `authenticate` raises, the
assignment on line 79 never happens and the cache stays `None`. -/
def get_token (cache : Option String) (r : PostResult) : TokenStep :=
  match cache with
  | some t => { cache := some t, outcome := .token t, calledAuth := false }
  | none =>
    match authenticate r with
    | .token t => { cache := some t, outcome := .token t, calledAuth := true }
    | o => { cache := none, outcome := o, calledAuth := true }

/-- Repeated `get_token` calls against a sequence of transport responses
(one per call; unused when the cache is hit).  Returns the final cache and
the number of calls that invoked `authenticate`. -/
def get_token_calls (cache : Option String) : List PostResult → Option String × Nat
  | [] => (cache, 0)
  | r :: rs =>
    let s := get_token cache r
    let (c, k) := get_token_calls s.cache rs
    (c, (if s.calledAuth then 1 else 0) + k)

theorem get_token_calls_cached (s : String) (rs : List PostResult) :
    get_token_calls (some s) rs = (some s, 0) := by
  induction rs with
  | nil => rfl
  | cons r rs ih => simp [get_token_calls, get_token, ih]

/-- Outcome of one HTTP request against a note endpoint (GET or POST): a
JSON note body, or a connection-level failure raised as `IOError`. -/
inductive NoteResp where
  | note (n : Note)
  | connError
deriving DecidableEq

/-- The `(value, status)` pair every note operation returns: a note dict on
success, or the caught exception object with status `-1`. -/
inductive RetVal where
  | note (n : Note)
  | err (e : String)
deriving DecidableEq

/-- `update_note`'s response handling (source lines 150-158): parse the
JSON body and return `(note, 0)`; on the caught `IOError` — the builtin
name, a live handler — return `(e, -1)`. -/
def postOutcome : NoteResp → RetVal × Int
  | .note n => (.note n, 0)
  | .connError => (.err "IOError", -1)

/-- `Simplenote.get_note` (source lines 91-122) for a given transport
response.  A JSON response is returned as `(note, 0)`; `__encode` is the
identity under Python 3.  When the GET raises a transport exception, the
interpreter evaluates the first handler clause `except HTTPError`
(line 114) — but `HTTPError` is neither imported by the module nor a
builtin, so that name lookup raises `NameError` while the exception is
being handled, pre-empting the `except IOError` clause of line 116.
`get_note` therefore never returns a `-1` status: it raises. -/
def get_note (resp : NoteResp) : Except String (RetVal × Int) :=
  match resp with
  | .note n => .ok (.note n, 0)
  | .connError => .error "NameError: name HTTPError is not defined"

/-- One `update_note` call: the URL POSTed to, the note dict sent as the
JSON body, and the `(value, status)` returned. -/
structure UpdateRun where
  url : String
  sent : Note
  ret : RetVal × Int
deriving DecidableEq

/-- `Simplenote.update_note` (source lines 124-158) for a given current
time `now` (`time.time()`) and transport response.  `__decode` is the
identity under Python 3.  If the note has a `"key"`, a `"modifydate"` is
set when absent (lines 141-144) and the POST goes to
`DATA_URL/{note["key"]}` (line 146); otherwise the POST goes to `DATA_URL`
(line 148).  The POST's `except IOError` handler returns `(e, -1)`
(lines 152-153). -/
def update_note_run (now : Int) (note : Note) (resp : NoteResp) : UpdateRun :=
  match noteGet note "key" with
  | some k =>
    let note' := match noteGet note "modifydate" with
                 | some _ => note
                 | none => noteSet note "modifydate" (.num now)
    { url := DATA_URL ++ "/" ++ k.toStr, sent := note', ret := postOutcome resp }
  | none => { url := DATA_URL, sent := note, ret := postOutcome resp }

/-- The note dict held in a `RetVal`, for contexts where the status flag
already guarantees success (`[]` is never reached on such paths). -/
def RetVal.asNote : RetVal → Note
  | .note n => n
  | .err _ => []

/-- One `trash_note` call: whether the update POST was issued, and either
the `(value, status)` pair returned or the exception that propagated out
of the call. -/
structure TrashRun where
  updateCalled : Bool
  ret : Except String (RetVal × Int)

/-- `Simplenote.trash_note` (source lines 238-261): fetch the note — an
exception raised by `get_note` propagates, with no update request ever
issued; if the fetch returned status `-1`, return that `(value, status)`
unchanged without any update request (lines 254-255; dead code, since
`get_note` raises instead of returning `-1`); otherwise set
`note["deleted"] = 1` (line 258) and return `update_note`'s result
(line 261).  `getResp` and `updResp` are the transport's responses to
the GET and to the POST. -/
def trash_note_run (now : Int) (getResp updResp : NoteResp) : TrashRun :=
  match get_note getResp with
  | .error e => { updateCalled := false, ret := .error e }
  | .ok (v, st) =>
    if st = -1 then { updateCalled := false, ret := .ok (v, st) }
    else
      let n' := noteSet v.asNote "deleted" (.num 1)
      { updateCalled := true, ret := .ok (update_note_run now n' updResp).ret }

/-- Outcome of the DELETE request: any response, or a connection-level
failure raised as `IOError`. -/
inductive DelResp where
  | ok
  | connError
deriving DecidableEq

/-- One `delete_note` call: the URL the DELETE request was issued against
(`none` when the trash step raised or failed, so no DELETE was issued),
and either the `(value, status)` pair returned or the propagated
exception. -/
structure DeleteRun where
  deleteUrl : Option String
  ret : Except String (RetVal × Int)

/-- The id-scoped URL `"%s/%s" % (DATA_URL, str(note_id))` computed into
the local variable `url` at source line 282 — which the request on
line 285 never uses. -/
def delete_note_url (note_id : String) : String :=
  DATA_URL ++ "/" ++ note_id

/-- `Simplenote.delete_note` (source lines 263-289): trash the note first
(line 277) — an exception raised by the trash step propagates, a failed
trash is returned unchanged (lines 279-280) — otherwise issue
`self.session.delete(DATA_URL, ...)` (line 285) — the request targets
the bare collection endpoint `DATA_URL`, not the id-scoped `url` local
computed on line 282 — and return `({}, 0)` (line 289), or `(e, -1)` if
the DELETE raises `IOError` (lines 286-287). -/
def delete_note_run (now : Int) (note_id : String) (getResp updResp : NoteResp)
    (delResp : DelResp) : DeleteRun :=
  match (trash_note_run now getResp updResp).ret with
  | .error e => { deleteUrl := none, ret := .error e }
  | .ok (v, st) =>
    if st = -1 then { deleteUrl := none, ret := .ok (v, st) }
    else
      let _url := delete_note_url note_id
      { deleteUrl := some DATA_URL,
        ret := match delResp with
               | .ok => .ok (.note [], 0)
               | .connError => .ok (.err "IOError", -1) }

/-- The query-parameter dict sent with one listing request: the auth
params (source lines 85-89), the fixed `length` (line 215), the optional
numeric `since` (lines 217-222), and the optional continuation `mark`
(lines 307-308). -/
structure IndexParams where
  auth : String
  email : String
  length : Nat
  since : Option Int
  mark : Option String
deriving DecidableEq

/-- Transport outcome for one listing request in `__get_notes`
(source lines 310-316): a parsed JSON body holding a `data` array and an
optional `mark`, or a connection-level failure caught as `IOError`. -/
inductive PageResp where
  | page (data : List Note) (mark : Option String)
  | ioError
deriving DecidableEq

/-- The `data` array of a page response (`[]` for a failed request, whose
body contributes nothing). -/
def pageData : PageResp → List Note
  | .page d _ => d
  | .ioError => []

/-- The value `self.mark` takes after a page response (source
lines 318-321): the returned mark, or `""` when none is returned. -/
def pageMark : PageResp → String
  | .page _ (some m) => m
  | .page _ none => ""
  | .ioError => ""

/-- A page response that keeps the loop running: a parsed page whose
returned mark is a nonempty (truthy) string. -/
def isContinuing : PageResp → Bool
  | .page _ (some m) => m ≠ ""
  | _ => false

/-- A continuing page whose mark also avoids the sentinel string
`"mark"` that `__get_notes` uses to mean "first page" (source lines 36,
212, 307). -/
def goodCont : PageResp → Bool
  | .page _ (some m) => m ≠ "" && m ≠ "mark"
  | _ => false

/-- A returned mark that terminates the loop: absent, or empty. -/
def termMark : Option String → Bool
  | none => true
  | some m => m = ""

/-- Source lines 307-308: before the request, `params['mark']` is set to
`self.mark` unless `self.mark` still holds the sentinel `"mark"`.  The
dict `params` is mutated in place, so the updated value is what later
iterations start from. -/
def stepParams (mark : String) (params : IndexParams) : IndexParams :=
  if mark ≠ "mark" then { params with mark := some mark } else params

/-- The status one `__get_notes` call leaves in `get_note_list`'s loop:
`0` for a parsed page (source line 314), `-1` for `IOError`
(source line 316). -/
def pageStatus : PageResp → Int
  | .page _ _ => 0
  | .ioError => -1

/-- The `while self.mark:` loop of `get_note_list` (source lines 225-226)
together with `__get_notes` (source lines 291-323), consuming one
transport response per iteration.  Returns the listing requests issued (as
their parameter dicts, in order), the accumulated `notes["data"]`, and the
status of the last iteration (on `IOError` the response dict is empty so
`self.mark` becomes `""` and the loop ends).  An exhausted response list
stops the loop (a transport that never answers again is outside the
model; every theorem below supplies a response list the loop finishes
within). -/
def runPages (mark : String) (acc : List Note) (params : IndexParams) (status : Int) :
    List PageResp → List IndexParams × List Note × Int
  | [] => ([], acc, status)
  | r :: rest =>
    if mark = "" then ([], acc, status)
    else
      let params' := stepParams mark params
      let res := runPages (pageMark r) (acc ++ pageData r) params' (pageStatus r) rest
      (params' :: res.1, res.2)

/-- `set(v)` as applied to a tag value by the filter on source line 234:
a list of strings iterates its elements; a string iterates its characters;
a number is not iterable and raises `TypeError`. -/
def JVal.iterStrs : JVal → Option (List String)
  | .strs ts => some ts
  | .s str => some (str.data.map (fun c => String.mk [c]))
  | .num _ => none

/-- The tag filter of source lines 233-234:
`[n for n in note_list if (len(set(n["tags"]).intersection(tags)) > 0)]`.
The lookup `n["tags"]` is unguarded — a record without a `"tags"` field
raises `KeyError`, and a non-iterable value raises `TypeError` — so the
result is an `Except`. -/
def tagFilter (tags : List String) : List Note → Except String (List Note)
  | [] => .ok []
  | n :: rest =>
    match noteGet n "tags" with
    | none => .error "KeyError: tags"
    | some v =>
      match v.iterStrs with
      | none => .error "TypeError: not iterable"
      | some ts =>
        match tagFilter tags rest with
        | .error e => .error e
        | .ok l => .ok (if ts.any (fun t => tags.contains t) then n :: l else l)

/-- One `get_note_list` call: the listing requests issued and either the
`(note_list, status)` pair returned, or the exception the tag filter
raised. -/
structure ListRun where
  requests : List IndexParams
  result : Except String (List Note × Int)

/-- The parameter dict `get_note_list` builds before its loop (source
lines 214-222): auth params, the fixed page length, the optional numeric
`since`, and no `mark` yet. -/
def initIndexParams (auth email : String) (since : Option Int) : IndexParams :=
  { auth := auth, email := email, length := NOTE_FETCH_LENGTH,
    since := since, mark := none }

/-- `Simplenote.get_note_list` (source lines 186-236) for a given auth
state and transport behaviour.  `parseSince` models
`time.mktime(datetime.datetime.strptime(s, "%Y-%m-%d").timetuple())`:
`some t` when the string parses, `none` when `strptime` raises
`ValueError`; `strptime(None, ...)` raises `TypeError`, so an absent
`since` also leaves the parameter unset (lines 217-222).  `self.mark` is
reset to the sentinel `"mark"` (line 212), the loop of lines 225-226 runs,
and the accumulated list is tag-filtered only afterwards
(lines 229-234). -/
def get_note_list_run (auth email : String) (parseSince : String → Option Int)
    (since : Option String) (tags : List String) (resps : List PageResp) : ListRun :=
  let res := runPages "mark" [] (initIndexParams auth email (since.bind parseSince)) 0 resps
  { requests := res.1,
    result :=
      if tags.length > 0 then
        match tagFilter tags res.2.1 with
        | .ok l => .ok (l, res.2.2)
        | .error e => .error e
      else .ok (res.2.1, res.2.2) }

/-! ### Helper lemmas about the pagination loop -/

theorem stepParams_since (mark : String) (params : IndexParams) :
    (stepParams mark params).since = params.since := by
  unfold stepParams
  split <;> rfl

theorem stepParams_good (mark : String) (h : mark ≠ "mark") (params : IndexParams) :
    stepParams mark params = { params with mark := some mark } := by
  simp [stepParams, h]

theorem pageMark_term (d : List Note) (lm : Option String) (hlm : termMark lm = true) :
    pageMark (PageResp.page d lm) = "" := by
  cases lm with
  | none => rfl
  | some s =>
    simp [termMark] at hlm
    simp [pageMark, hlm]

theorem runPages_empty_mark (acc : List Note) (params : IndexParams) (status : Int)
    (resps : List PageResp) :
    runPages "" acc params status resps = ([], acc, status) := by
  cases resps <;> simp [runPages]

theorem runPages_cons (mark : String) (hm : mark ≠ "") (acc : List Note)
    (params : IndexParams) (status : Int) (r : PageResp) (rest : List PageResp) :
    runPages mark acc params status (r :: rest) =
      (stepParams mark params ::
        (runPages (pageMark r) (acc ++ pageData r) (stepParams mark params)
          (pageStatus r) rest).1,
       (runPages (pageMark r) (acc ++ pageData r) (stepParams mark params)
          (pageStatus r) rest).2) := by
  simp [runPages, hm]

/-- A run whose responses are "good" continuing pages (nonempty,
non-sentinel marks) followed by a terminal page: each page's data is
appended in order, each request after the current one carries the
previous page's mark, the final status is `0`, and nothing after the
terminal page is consumed. -/
theorem runPages_goodCont (ps : List PageResp) (hps : ∀ p ∈ ps, goodCont p = true)
    (m : String) (hm1 : m ≠ "") (hm2 : m ≠ "mark") (q : IndexParams) (acc : List Note)
    (status : Int) (d : List Note) (lm : Option String) (hlm : termMark lm = true)
    (rest : List PageResp) :
    runPages m acc q status (ps ++ PageResp.page d lm :: rest) =
      ((m :: ps.map pageMark).map (fun mk => { q with mark := some mk }),
       acc ++ (ps.map pageData).flatten ++ d, 0) := by
  induction ps generalizing m q acc status with
  | nil =>
    rw [List.nil_append, runPages_cons m hm1, pageMark_term d lm hlm,
      runPages_empty_mark, stepParams_good m hm2]
    simp [pageData, pageStatus]
  | cons r ps ih =>
    obtain ⟨dr, mr, hmr1, hmr2, rfl⟩ :
        ∃ dr mr, mr ≠ "" ∧ mr ≠ "mark" ∧ r = PageResp.page dr (some mr) := by
      have hr := hps r (List.mem_cons_self r ps)
      cases r with
      | ioError => simp [goodCont] at hr
      | page dr om =>
        cases om with
        | none => simp [goodCont] at hr
        | some mr =>
          simp [goodCont] at hr
          exact ⟨dr, mr, hr.1, hr.2, rfl⟩
    have hps' : ∀ p ∈ ps, goodCont p = true := fun p hp => hps p (List.mem_cons_of_mem _ hp)
    rw [List.cons_append, runPages_cons m hm1, stepParams_good m hm2]
    have hrec := ih hps' mr hmr1 hmr2 { q with mark := some m } (acc ++ dr) (pageStatus (PageResp.page dr (some mr)))
    simp only [pageMark, pageData] at hrec ⊢
    rw [hrec]
    simp [pageMark, pageData, List.append_assoc]

/-- A run whose responses are continuing pages followed by one response
the loop stops after (a terminal page or an `IOError`): one request per
consumed response, data appended in order, and the stopping response's
status returned. -/
theorem runPages_stop_last (ps : List PageResp) (hps : ∀ p ∈ ps, isContinuing p = true)
    (f : PageResp) (hf : pageMark f = "") (m : String) (hm : m ≠ "")
    (q : IndexParams) (acc : List Note) (status : Int) (rest : List PageResp) :
    (runPages m acc q status (ps ++ f :: rest)).1.length = ps.length + 1
    ∧ (runPages m acc q status (ps ++ f :: rest)).2 =
        (acc ++ (ps.map pageData).flatten ++ pageData f, pageStatus f) := by
  induction ps generalizing m q acc status with
  | nil =>
    rw [List.nil_append, runPages_cons m hm, hf, runPages_empty_mark]
    simp
  | cons r ps ih =>
    obtain ⟨dr, mr, hmr, rfl⟩ : ∃ dr mr, mr ≠ "" ∧ r = PageResp.page dr (some mr) := by
      have hr := hps r (List.mem_cons_self r ps)
      cases r with
      | ioError => simp [isContinuing] at hr
      | page dr om =>
        cases om with
        | none => simp [isContinuing] at hr
        | some mr =>
          simp [isContinuing] at hr
          exact ⟨dr, mr, hr, rfl⟩
    have hps' : ∀ p ∈ ps, isContinuing p = true := fun p hp => hps p (List.mem_cons_of_mem _ hp)
    rw [List.cons_append, runPages_cons m hm]
    have hrec := ih hps' mr hmr (stepParams m q) (acc ++ dr) (pageStatus (PageResp.page dr (some mr)))
    simp only [pageMark, pageData] at hrec ⊢
    rw [hrec.2]
    simp [hrec.1, pageData, List.append_assoc]

/-- Every request issued by the loop carries the `since` value of the
initial parameter dict: only the `mark` field is ever rewritten. -/
theorem runPages_since (resps : List PageResp) (m : String) (q : IndexParams)
    (acc : List Note) (status : Int) :
    ∀ r ∈ (runPages m acc q status resps).1, r.since = q.since := by
  induction resps generalizing m q acc status with
  | nil => simp [runPages]
  | cons p resps ih =>
    by_cases hm : m = ""
    · subst hm
      simp [runPages_empty_mark]
    · intro r hr
      rw [runPages_cons m hm] at hr
      rcases List.mem_cons.mp hr with rfl | hr
      · exact stepParams_since m q
      · have := ih (pageMark p) (stepParams m q) (acc ++ pageData p) (pageStatus p) r hr
        rw [this, stepParams_since]

/-- The accumulated data and final status of the loop do not depend on
the parameter dict. -/
theorem runPages_snd_params (resps : List PageResp) (m : String) (acc : List Note)
    (status : Int) (q q' : IndexParams) :
    (runPages m acc q status resps).2 = (runPages m acc q' status resps).2 := by
  induction resps generalizing m acc status q q' with
  | nil => rfl
  | cons p resps ih =>
    by_cases hm : m = ""
    · subst hm
      simp [runPages_empty_mark]
    · rw [runPages_cons m hm, runPages_cons m hm]
      exact ih (pageMark p) (acc ++ pageData p) (pageStatus p) (stepParams m q) (stepParams m q')

/-- The record carries a `"tags"` field holding a list of strings. -/
def hasStrTags (n : Note) : Bool :=
  match noteGet n "tags" with
  | some (.strs _) => true
  | _ => false

/-- The filter predicate of source line 234 on a record whose `"tags"`
field is a list of strings: some tag of the record occurs in the
requested tag set. -/
def matchesTags (tags : List String) (n : Note) : Bool :=
  match noteGet n "tags" with
  | some (.strs ts) => ts.any (fun t => tags.contains t)
  | _ => false

/-- When every record carries a string-list `"tags"` field, the filter
raises nothing and keeps exactly the records with a shared tag. -/
theorem tagFilter_ok (tags : List String) (l : List Note)
    (h : ∀ n ∈ l, hasStrTags n = true) :
    tagFilter tags l = .ok (l.filter (fun n => matchesTags tags n)) := by
  induction l with
  | nil => rfl
  | cons n l ih =>
    have hn := h n (List.mem_cons_self n l)
    have hl := ih fun n' hn' => h n' (List.mem_cons_of_mem _ hn')
    unfold hasStrTags at hn
    obtain ⟨ts, hts⟩ : ∃ ts, noteGet n "tags" = some (.strs ts) := by
      cases hg : noteGet n "tags" with
      | none => rw [hg] at hn; simp at hn
      | some v =>
        cases v with
        | s str => rw [hg] at hn; simp at hn
        | num k => rw [hg] at hn; simp at hn
        | strs ts => exact ⟨ts, rfl⟩
    have hp : matchesTags tags n = ts.any (fun t => tags.contains t) := by
      simp only [matchesTags, hts]
    simp only [tagFilter, hts, JVal.iterStrs, hl, List.filter_cons, hp]

/-- If some record in the list lacks a `"tags"` field, the filter raises
(`KeyError` at that record, unless an earlier record already raised). -/
theorem tagFilter_error (tags : List String) (l : List Note)
    (h : ∃ n ∈ l, noteGet n "tags" = none) :
    ∃ e, tagFilter tags l = .error e := by
  induction l with
  | nil => simp at h
  | cons n l ih =>
    obtain ⟨w, hw, hwn⟩ := h
    rcases List.mem_cons.mp hw with rfl | hw
    · exact ⟨"KeyError: tags", by simp [tagFilter, hwn]⟩
    · cases hg : noteGet n "tags" with
      | none => exact ⟨"KeyError: tags", by simp [tagFilter, hg]⟩
      | some v =>
        cases hit : v.iterStrs with
        | none => exact ⟨"TypeError: not iterable", by simp [tagFilter, hg, hit]⟩
        | some ts =>
          obtain ⟨e, he⟩ := ih ⟨w, hw, hwn⟩
          exact ⟨e, by simp [tagFilter, hg, hit, he]⟩

/-! ### Sample records used in concrete instances -/

/-- A small note record with only a key. -/
def noteA : Note := [("key", JVal.s "a")]

/-- A small note record with only a key. -/
def noteB : Note := [("key", JVal.s "b")]

/-- A small note record with only a key. -/
def noteC : Note := [("key", JVal.s "c")]

/-! ### Claim theorems -/

/-- C3 counterexample: `get_token` does *not* re-invoke `authenticate`
when the cached token is the empty string.  An empty-string token is
reachable (a login response with an empty body caches `""`), and a
subsequent `get_token` call with that cache returns it without calling
`authenticate`, because line 78 tests `self.token == None`, not
truthiness. -/
theorem get_token_empty_cache_counterexample :
    (get_token none (PostResult.resp 200 "")).cache = some ""
    ∧ (get_token (some "") (PostResult.resp 200 "tok")).calledAuth = false := by
  exact ⟨rfl, rfl⟩

/-- C3 (amended): `get_token` returns the cached token without calling
`authenticate` whenever the cache is not `None` — including a cached
empty string; only a `None` cache makes a call invoke `authenticate`;
and across repeated `get_token` calls whose first login POST gets a
response, `authenticate` runs exactly once. -/
theorem get_token_caching :
    (∀ s r, get_token (some s) r =
        { cache := some s, outcome := .token s, calledAuth := false })
    ∧ (∀ r, (get_token none r).calledAuth = true)
    ∧ (∀ st body rs, (get_token_calls none (PostResult.resp st body :: rs)).2 = 1) := by
  refine ⟨fun s r => rfl, fun r => ?_, fun st body rs => ?_⟩
  · cases r <;> rfl
  · simp [get_token_calls, get_token, authenticate, get_token_calls_cached]

/-- C4: the code contradicts the claimed asymmetry.  `authenticate`
returns the response body as the token for *every* HTTP response —
including HTTP-level failures such as a 401, since `response.text`
(line 60) raises nothing and no `raise_for_status` is called — so
`SimplenoteLoginFailed` is never raised; and a connectivity failure
propagates as an uncaught `IOError` because the POST (line 57) stands
outside the `try` block (lines 59-66), instead of returning an absent
token. -/
theorem authenticate_error_handling_bug :
    (∀ st body, authenticate (PostResult.resp st body) = AuthOutcome.token body)
    ∧ authenticate PostResult.connError = AuthOutcome.ioError
    ∧ (∀ r, authenticate r ≠ AuthOutcome.loginFailed) := by
  refine ⟨fun st body => rfl, rfl, fun r => ?_⟩
  cases r <;> simp [authenticate]

/-- C5: `delete_note` trashes first and skips the DELETE when the trash
step fails, but the DELETE it then issues always targets the bare
collection endpoint `DATA_URL` (source line 285), never the id-scoped
URL `DATA_URL/{note_id}` computed into the unused local on line 282 —
shown here both in general and on the concrete note id `"k1"`. -/
theorem delete_note_wrong_url :
    (∀ now note_id getResp updResp delResp,
        (delete_note_run now note_id getResp updResp delResp).deleteUrl = none
        ∨ (delete_note_run now note_id getResp updResp delResp).deleteUrl = some DATA_URL)
    ∧ (delete_note_run 0 "k1" (NoteResp.note [("key", JVal.s "k1")])
        (NoteResp.note []) DelResp.ok).deleteUrl = some DATA_URL
    ∧ DATA_URL ≠ delete_note_url "k1" := by
  refine ⟨fun now note_id getResp updResp delResp => ?_, rfl, by decide⟩
  cases h : (trash_note_run now getResp updResp).ret with
  | error e => exact Or.inl (by simp [delete_note_run, h])
  | ok p =>
    obtain ⟨v, st⟩ := p
    by_cases h2 : st = -1
    · exact Or.inl (by simp [delete_note_run, h, h2])
    · exact Or.inr (by simp [delete_note_run, h, h2])

/-- C7: `update_note` routing.  A note with a `"key"` is POSTed to the
per-id endpoint `DATA_URL/{key}`, with a `"modifydate"` injected exactly
when absent and kept unchanged when present; a note without a `"key"` is
POSTed to the collection endpoint `DATA_URL` unchanged. -/
theorem update_note_routing (now : Int) (note : Note) (resp : NoteResp) :
    (∀ k, noteGet note "key" = some k →
        (update_note_run now note resp).url = DATA_URL ++ "/" ++ k.toStr
        ∧ (noteGet note "modifydate" = none →
            (update_note_run now note resp).sent
              = noteSet note "modifydate" (JVal.num now))
        ∧ (∀ v, noteGet note "modifydate" = some v →
            (update_note_run now note resp).sent = note))
    ∧ (noteGet note "key" = none →
        (update_note_run now note resp).url = DATA_URL
        ∧ (update_note_run now note resp).sent = note) := by
  constructor
  · intro k hk
    refine ⟨by simp [update_note_run, hk], fun hm => ?_, fun v hv => ?_⟩
    · simp [update_note_run, hk, hm]
    · simp [update_note_run, hk, hv]
  · intro hk
    exact ⟨by simp [update_note_run, hk], by simp [update_note_run, hk]⟩

/-- C7 witness: `update_note({key:"k1", content:"hi"})` at time 42 POSTs
to the per-id endpoint and injects `modifydate = 42`. -/
theorem update_note_routing_witness :
    (update_note_run 42 [("key", JVal.s "k1"), ("content", JVal.s "hi")]
        (NoteResp.note [])).url = DATA_URL ++ "/" ++ "k1"
    ∧ (update_note_run 42 [("key", JVal.s "k1"), ("content", JVal.s "hi")]
        (NoteResp.note [])).sent
      = [("key", JVal.s "k1"), ("content", JVal.s "hi"), ("modifydate", JVal.num 42)] := by
  have h := update_note_routing 42 [("key", JVal.s "k1"), ("content", JVal.s "hi")]
    (NoteResp.note [])
  refine ⟨(h.1 (JVal.s "k1") rfl).1, ?_⟩
  rw [(h.1 (JVal.s "k1") rfl).2.1 rfl]
  rfl

/-- C8: the failure half of the claim rests on dead code.  `get_note`
never returns a `-1` status — every JSON response yields `(note, 0)`,
and a transport failure raises `NameError` (evaluating the undefined
name `HTTPError` in the first except clause, line 114, pre-empts the
`IOError` handler of line 116) — so `trash_note` propagates that
exception instead of the claimed `(value, -1)` pair (still issuing no
update request).  The success half is as claimed: the fetched note gets
`deleted = 1` and `update_note`'s result is returned. -/
theorem trash_note_fetch_failure_bug :
    (∀ n, get_note (NoteResp.note n) = .ok (.note n, 0))
    ∧ get_note NoteResp.connError
        = .error "NameError: name HTTPError is not defined"
    ∧ (trash_note_run 0 NoteResp.connError (NoteResp.note [])).updateCalled = false
    ∧ (trash_note_run 0 NoteResp.connError (NoteResp.note [])).ret
        = .error "NameError: name HTTPError is not defined"
    ∧ (∀ now n updResp,
        (trash_note_run now (NoteResp.note n) updResp).updateCalled = true
        ∧ (trash_note_run now (NoteResp.note n) updResp).ret
            = .ok (update_note_run now (noteSet n "deleted" (JVal.num 1)) updResp).ret) := by
  refine ⟨fun n => rfl, rfl, rfl, rfl, fun now n updResp => ⟨?_, ?_⟩⟩
  · simp [trash_note_run, get_note, RetVal.asNote]
  · simp [trash_note_run, get_note, RetVal.asNote]

/-- C1 counterexample: a page whose returned mark is the literal string
`"mark"` — `__get_notes`'s in-band sentinel for "first page" — keeps the
loop running but is *not* forwarded: the test on source line 307
(`if self.mark != "mark"`) skips setting the `mark` parameter, so the
second request carries no mark instead of the previous page's mark
`"mark"`. -/
theorem get_note_list_sentinel_mark_counterexample :
    pageMark (PageResp.page [noteA] (some "mark")) = "mark"
    ∧ ((get_note_list_run "t" "e" (fun _ => none) none []
        [PageResp.page [noteA] (some "mark"), PageResp.page [noteB] (some "")]).requests.map
          IndexParams.mark) = [none, none] := by
  exact ⟨rfl, rfl⟩

/-- C1 (amended): provided no page's returned mark equals the internal
sentinel string `"mark"`, `get_note_list` issues one request per page,
the first without a mark and each later one carrying the previous page's
mark, concatenates the pages' `data` arrays in order, stops as soon as a
page's mark is empty or absent (responses after that are never
requested), and returns status `0`. -/
theorem get_note_list_pagination (auth email : String)
    (parseSince : String → Option Int) (since : Option String)
    (ps : List PageResp) (hps : ∀ p ∈ ps, goodCont p = true)
    (d : List Note) (lm : Option String) (hlm : termMark lm = true)
    (rest : List PageResp) :
    (get_note_list_run auth email parseSince since []
        (ps ++ PageResp.page d lm :: rest)).requests
      = initIndexParams auth email (since.bind parseSince)
          :: ps.map (fun p =>
            { initIndexParams auth email (since.bind parseSince) with
                mark := some (pageMark p) })
    ∧ (get_note_list_run auth email parseSince since []
        (ps ++ PageResp.page d lm :: rest)).result
      = .ok ((ps.map pageData).flatten ++ d, 0) := by
  have hq : stepParams "mark" (initIndexParams auth email (since.bind parseSince))
      = initIndexParams auth email (since.bind parseSince) := by
    simp [stepParams]
  cases ps with
  | nil =>
    have h1 := runPages_cons "mark" (by decide) []
      (initIndexParams auth email (since.bind parseSince)) 0 (PageResp.page d lm) rest
    rw [pageMark_term d lm hlm, runPages_empty_mark, hq] at h1
    constructor
    · simp [get_note_list_run, h1]
    · simp [get_note_list_run, h1, pageData, pageStatus]
  | cons r ps =>
    obtain ⟨dr, mr, hmr1, hmr2, rfl⟩ :
        ∃ dr mr, mr ≠ "" ∧ mr ≠ "mark" ∧ r = PageResp.page dr (some mr) := by
      have hr := hps r (List.mem_cons_self r ps)
      cases r with
      | ioError => simp [goodCont] at hr
      | page dr om =>
        cases om with
        | none => simp [goodCont] at hr
        | some mr =>
          simp [goodCont] at hr
          exact ⟨dr, mr, hr.1, hr.2, rfl⟩
    have hps' : ∀ p ∈ ps, goodCont p = true := fun p hp => hps p (List.mem_cons_of_mem _ hp)
    have h1 := runPages_cons "mark" (by decide) []
      (initIndexParams auth email (since.bind parseSince)) 0
      (PageResp.page dr (some mr)) (ps ++ PageResp.page d lm :: rest)
    rw [hq] at h1
    simp only [pageMark, pageData, pageStatus, List.nil_append] at h1
    have h2 := runPages_goodCont ps hps' mr hmr1 hmr2
      (initIndexParams auth email (since.bind parseSince)) dr 0 d lm hlm rest
    constructor
    · simp only [get_note_list_run, List.cons_append, h1, h2]
      simp [List.map_map, Function.comp, pageMark]
    · simp only [get_note_list_run, List.cons_append, h1, h2]
      simp [pageData]

/-- C1 witness: with pages `[{data:[A,B], mark:"m1"}, {data:[C],
mark:""}]`, `get_note_list()` returns `[A,B,C]` with status `0` and
issues exactly 2 listing requests, the second carrying mark `"m1"`. -/
theorem get_note_list_pagination_witness :
    (get_note_list_run "t" "e" (fun _ => none) none []
        [PageResp.page [noteA, noteB] (some "m1"), PageResp.page [noteC] (some "")]).requests
      = [initIndexParams "t" "e" none,
         { initIndexParams "t" "e" none with mark := some "m1" }]
    ∧ (get_note_list_run "t" "e" (fun _ => none) none []
        [PageResp.page [noteA, noteB] (some "m1"), PageResp.page [noteC] (some "")]).result
      = .ok ([noteA, noteB, noteC], 0) := by
  have h := get_note_list_pagination "t" "e" (fun _ => none) none
    [PageResp.page [noteA, noteB] (some "m1")] (by decide) [noteC] (some "")
    (by decide) []
  exact ⟨h.1, h.2⟩

/-- C2: a connectivity failure while fetching any page terminates the
loop (the empty response dict yields no mark, so `self.mark` becomes
`""`), and `get_note_list()` still returns the notes accumulated from
the pages fetched before the failure, with status `-1`, without
raising. -/
theorem get_note_list_failure_partial (auth email : String)
    (parseSince : String → Option Int) (since : Option String)
    (ps : List PageResp) (hps : ∀ p ∈ ps, isContinuing p = true)
    (rest : List PageResp) :
    (get_note_list_run auth email parseSince since []
        (ps ++ PageResp.ioError :: rest)).result
      = .ok ((ps.map pageData).flatten, -1)
    ∧ (get_note_list_run auth email parseSince since []
        (ps ++ PageResp.ioError :: rest)).requests.length
      = ps.length + 1 := by
  have h := runPages_stop_last ps hps PageResp.ioError rfl "mark" (by decide)
    (initIndexParams auth email (since.bind parseSince)) [] 0 rest
  constructor
  · simp [get_note_list_run, h.2, pageData, pageStatus]
  · simp [get_note_list_run, h.1]

/-- C2 witness: one good page `{data:[A], mark:"m1"}` followed by a
connectivity failure returns `([A], -1)` after exactly 2 requests. -/
theorem get_note_list_failure_partial_witness :
    (get_note_list_run "t" "e" (fun _ => none) none []
        [PageResp.page [noteA] (some "m1"), PageResp.ioError]).result
      = .ok ([noteA], -1)
    ∧ (get_note_list_run "t" "e" (fun _ => none) none []
        [PageResp.page [noteA] (some "m1"), PageResp.ioError]).requests.length = 2 := by
  have h := get_note_list_failure_partial "t" "e" (fun _ => none) none
    [PageResp.page [noteA] (some "m1")] (by decide) []
  exact ⟨h.1, h.2⟩

/-- C6: tag filtering is applied only to the fully assembled list: with
non-empty `tags` (and every accumulated record carrying a string-list
`"tags"` field, without which the filter raises — see the companion
safety claim), exactly the records sharing a tag with the requested set
are returned, `deleted` flags notwithstanding, and with empty `tags` the
accumulated list is returned unfiltered. -/
theorem get_note_list_tag_filter (auth email : String)
    (parseSince : String → Option Int) (since : Option String) (tags : List String)
    (ps : List PageResp) (hps : ∀ p ∈ ps, isContinuing p = true)
    (d : List Note) (lm : Option String) (hlm : termMark lm = true)
    (rest : List PageResp) :
    (tags ≠ [] →
        (∀ n ∈ (ps.map pageData).flatten ++ d, hasStrTags n = true) →
        (get_note_list_run auth email parseSince since tags
            (ps ++ PageResp.page d lm :: rest)).result
          = .ok (((ps.map pageData).flatten ++ d).filter
              (fun n => matchesTags tags n), 0))
    ∧ (get_note_list_run auth email parseSince since []
        (ps ++ PageResp.page d lm :: rest)).result
      = .ok ((ps.map pageData).flatten ++ d, 0) := by
  have h := runPages_stop_last ps hps (PageResp.page d lm) (pageMark_term d lm hlm)
    "mark" (by decide) (initIndexParams auth email (since.bind parseSince)) [] 0 rest
  constructor
  · intro ht hall
    have hlen : 0 < tags.length := List.length_pos.mpr ht
    have hfil := tagFilter_ok tags ((ps.map pageData).flatten ++ d) hall
    simp [get_note_list_run, h.2, pageData, pageStatus, hlen, hfil]
  · simp [get_note_list_run, h.2, pageData, pageStatus]

/-- C6 witness: for notes with tags `{x}`, `{y}`, `{}`, filtering on
`tags=["x"]` returns only the `{x}` note, and empty `tags` returns the
unfiltered list. -/
theorem get_note_list_tag_filter_witness :
    (get_note_list_run "t" "e" (fun _ => none) none ["x"]
        [PageResp.page [[("tags", JVal.strs ["x"])], [("tags", JVal.strs ["y"])],
          [("tags", JVal.strs [])]] (some "")]).result
      = .ok ([[("tags", JVal.strs ["x"])]], 0)
    ∧ (get_note_list_run "t" "e" (fun _ => none) none []
        [PageResp.page [[("tags", JVal.strs ["x"])], [("tags", JVal.strs ["y"])],
          [("tags", JVal.strs [])]] (some "")]).result
      = .ok ([[("tags", JVal.strs ["x"])], [("tags", JVal.strs ["y"])],
          [("tags", JVal.strs [])]], 0) := by
  have h := get_note_list_tag_filter "t" "e" (fun _ => none) none ["x"] [] (by decide)
    [[("tags", JVal.strs ["x"])], [("tags", JVal.strs ["y"])], [("tags", JVal.strs [])]]
    (some "") (by decide) []
  exact ⟨h.1 (by decide) (by decide), h.2⟩

/-- C9: a parsable `since` string is converted to a numeric timestamp
carried as the `since` parameter of every listing request, while an
absent or unparsable `since` leaves the parameter unset on every
request; either way the returned value and status are exactly those of
the call without `since`. -/
theorem get_note_list_since_param (auth email : String)
    (parseSince : String → Option Int) (since : Option String) (tags : List String)
    (resps : List PageResp) :
    (∀ r ∈ (get_note_list_run auth email parseSince since tags resps).requests,
        r.since = since.bind parseSince)
    ∧ (get_note_list_run auth email parseSince since tags resps).result
      = (get_note_list_run auth email parseSince none tags resps).result := by
  constructor
  · intro r hr
    have hr' : r ∈ (runPages "mark" []
        (initIndexParams auth email (since.bind parseSince)) 0 resps).1 := by
      simpa [get_note_list_run] using hr
    have h := runPages_since resps "mark"
      (initIndexParams auth email (since.bind parseSince)) [] 0 r hr'
    simpa [initIndexParams] using h
  · have h2 := runPages_snd_params resps "mark" [] 0
      (initIndexParams auth email (since.bind parseSince))
      (initIndexParams auth email none)
    simp [get_note_list_run, h2]

/-- C9 witness: with `since = "2020-01-02"` parsing to timestamp `100`,
the single listing request carries `since = 100`, and the result equals
that of the call without `since`. -/
theorem get_note_list_since_param_witness :
    initIndexParams "t" "e" (some 100)
        ∈ (get_note_list_run "t" "e" (fun s => if s = "2020-01-02" then some 100 else none)
            (some "2020-01-02") [] [PageResp.page [] (some "")]).requests
    ∧ (initIndexParams "t" "e" (some 100)).since = some 100
    ∧ (get_note_list_run "t" "e" (fun s => if s = "2020-01-02" then some 100 else none)
        (some "2020-01-02") [] [PageResp.page [] (some "")]).result
      = (get_note_list_run "t" "e" (fun s => if s = "2020-01-02" then some 100 else none)
        none [] [PageResp.page [] (some "")]).result := by
  have h := get_note_list_since_param "t" "e"
    (fun s => if s = "2020-01-02" then some 100 else none) (some "2020-01-02") []
    [PageResp.page [] (some "")]
  exact ⟨by decide, h.1 (initIndexParams "t" "e" (some 100)) (by decide), h.2⟩

/-- C10: with non-empty `tags`, a single accumulated record lacking a
`"tags"` field makes `get_note_list` raise out of the unguarded
`n["tags"]` lookup instead of returning a `(list, status)` pair; the
non-exceptional result is guaranteed when every accumulated record
carries a (string-list) `"tags"` field. -/
theorem get_note_list_missing_tags_error (auth email : String)
    (parseSince : String → Option Int) (since : Option String) (tags : List String)
    (ps : List PageResp) (hps : ∀ p ∈ ps, isContinuing p = true)
    (d : List Note) (lm : Option String) (hlm : termMark lm = true)
    (rest : List PageResp) (htags : tags ≠ []) :
    ((∃ n ∈ (ps.map pageData).flatten ++ d, noteGet n "tags" = none) →
        ∃ e, (get_note_list_run auth email parseSince since tags
            (ps ++ PageResp.page d lm :: rest)).result = .error e)
    ∧ ((∀ n ∈ (ps.map pageData).flatten ++ d, hasStrTags n = true) →
        (get_note_list_run auth email parseSince since tags
            (ps ++ PageResp.page d lm :: rest)).result
          = .ok (((ps.map pageData).flatten ++ d).filter
              (fun n => matchesTags tags n), 0)) := by
  have h := runPages_stop_last ps hps (PageResp.page d lm) (pageMark_term d lm hlm)
    "mark" (by decide) (initIndexParams auth email (since.bind parseSince)) [] 0 rest
  have hlen : 0 < tags.length := List.length_pos.mpr htags
  constructor
  · intro hmiss
    obtain ⟨e, he⟩ := tagFilter_error tags ((ps.map pageData).flatten ++ d) hmiss
    exact ⟨e, by simp [get_note_list_run, h.2, pageData, pageStatus, hlen, he]⟩
  · intro hall
    have hfil := tagFilter_ok tags ((ps.map pageData).flatten ++ d) hall
    simp [get_note_list_run, h.2, pageData, pageStatus, hlen, hfil]

/-- C10 witness: filtering on `tags=["x"]` over a single accumulated
record without a `"tags"` field raises instead of returning a pair. -/
theorem get_note_list_missing_tags_error_witness :
    (∃ n ∈ ([noteA] : List Note), noteGet n "tags" = none)
    ∧ ∃ e, (get_note_list_run "t" "e" (fun _ => none) none ["x"]
        [PageResp.page [noteA] (some "")]).result = .error e := by
  have h := get_note_list_missing_tags_error "t" "e" (fun _ => none) none ["x"] []
    (by decide) [noteA] (some "") (by decide) [] (by decide)
  have hm : ∃ n ∈ ([noteA] : List Note), noteGet n "tags" = none :=
    ⟨noteA, by decide, by decide⟩
  exact ⟨hm, h.1 hm⟩

end Simplenote
